import Mathlib

set_option maxRecDepth 8000

/-!
Shallow embedding of the multiplayer session core of `src/nah.py` ("Cube
Land"): room assignment and removal, presence events (move, disconnect),
the party-invite flow, marketplace purchases (`buy`) and donations
(`tap_player`).

Modelling conventions:
* Python dicts are association lists whose first binding wins (dict keys
  are unique in the source, so first-match semantics coincide).
* `ROOM_PURCHASE_COUNTS` (a dict of dicts, absent keys meaning count 0)
  is flattened to an association list keyed by `(roomId, itemId)`; the
  source's `setdefault(room_id, {})`, which inserts an empty inner dict,
  is the identity in this representation since it changes no count value.
* Coin balances, prices and donation amounts are Python ints, embedded
  as `Int`.  Coordinates are floats in the source, but the move handler
  stores the submitted values verbatim with no arithmetic, so they are
  embedded as `Int`.
* A Python `KeyError` (e.g. `USERS[username]` for an unknown user) makes
  the embedded operation return `none`.
* A socket.io `emit` is recorded as an `Emit` value; an emit with
  `room = some rid` is delivered to the members of that room (minus the
  sender when `includeSelf = false`), an emit with `room = none` only to
  the requesting socket.
HTTP/template glue, password hashing, file upload, `skin`/`last_active`
fields and the unused `world_state["placed"]` list are out of scope.
-/

/-- `MAX_ROOM_SIZE` from the source. -/
def MAX_ROOM_SIZE : Nat := 10

/-- Association-list lookup; the first binding wins (Python `d.get(k)` /
`d[k]`). -/
def alookup {κ α : Type} [DecidableEq κ] : List (κ × α) → κ → Option α
  | [], _ => none
  | (k, v) :: rest, key => if k = key then some v else alookup rest key

/-- Association-list write (Python `d[k] = v`): overwrite the first
binding for `k`, or append a new binding when none exists. -/
def aupdate {κ α : Type} [DecidableEq κ] : List (κ × α) → κ → α → List (κ × α)
  | [], key, v => [(key, v)]
  | (k, w) :: rest, key, v =>
    if k = key then (key, v) :: rest else (k, w) :: aupdate rest key v

/-- Association-list delete (Python `d.pop(k, None)`). -/
def aerase {κ α : Type} [DecidableEq κ] (l : List (κ × α)) (k : κ) :
    List (κ × α) :=
  l.filter (fun p => decide (p.1 ≠ k))

/-- One entry of a room's `world_state["players"]` dict.  The source
builds these dicts incrementally (`players.get(u, {})`,
`setdefault(u, {})`), so every field is optional. -/
structure WPlayer where
  x : Option Int
  y : Option Int
  inHouse : Option Bool
deriving DecidableEq

/-- The empty player dict `{}`. -/
def WPlayer.empty : WPlayer := ⟨none, none, none⟩

/-- One room of the global `ROOMS` list: `{id, users, world_state}`
(`created_at` is never read by the modelled operations). -/
structure Room where
  id : String
  users : List String
  players : List (String × WPlayer)
deriving DecidableEq

/-- One entry of `USERS`: mutable per-account record.  `home_pos` is
split into `homeX`/`homeY`. -/
structure UserRec where
  coins : Int
  homeX : Int
  homeY : Int
  inventory : List String
deriving DecidableEq

/-- One entry of `GLOBAL_STORE["items"]`: `limit` is `None` or an int
(`Option Nat`), `total_sold` a counter. -/
structure Item where
  id : String
  price : Int
  limit : Option Nat
  totalSold : Nat
deriving DecidableEq

/-- The process-wide mutable state of the server: `USERS`, `ROOMS`,
`GLOBAL_STORE["items"]`, `ROOM_PURCHASE_COUNTS` (flattened) and
`LOGGED_IN` (socket id → username). -/
structure ServerState where
  users : List (String × UserRec)
  rooms : List Room
  items : List Item
  roomCounts : List ((String × String) × Nat)
  loggedIn : List (String × String)
deriving DecidableEq

/-- Payload of a socket.io `emit` in the modelled handlers. -/
inductive Ev where
  | playerLeave (username : String)
  | playerMoved (username : String) (x y : Int)
  | partyNotification (host : String)
  | partyFailed
  | joinedParty (host guest : String)
  | partyDeclined (host guest : String)
  | donation (src dst : String) (amount : Int)
  | donateFailed
  | attacked (src dst : String)
deriving DecidableEq

/-- A recorded `emit` call: event payload, target room (`none` = only
the requesting socket) and the `include_self` flag (`emit` defaults to
including the sender). -/
structure Emit where
  ev : Ev
  room : Option String
  includeSelf : Bool
deriving DecidableEq

/-- The member list an `Emit` reaches: every member of the target room,
minus the sender when `includeSelf = false`. -/
def roomRecipients (room : Room) (sender : String) (includeSelf : Bool) :
    List String :=
  if includeSelf then room.users else room.users.filter (fun m => decide (m ≠ sender))

/-- `get_room_for_user`: first room of `ROOMS` whose `users` list
contains the username. -/
def get_room_for_user : List Room → String → Option Room
  | [], _ => none
  | r :: rs, u => if u ∈ r.users then some r else get_room_for_user rs u

/-- A freshly created room `{id, users: [username], world_state: …}`. -/
def mkRoom (roomId username : String) : Room :=
  ⟨roomId, [username], []⟩

/-- Core of `assign_room_for_user` on the `ROOMS` list: append the user
to the first room with fewer than `MAX_ROOM_SIZE` members, else append a
new room.  `newId` stands for the fresh `uuid4` of the new-room branch.
Returns the updated list and the id of the room the user landed in. -/
def assignRooms : List Room → String → String → List Room × String
  | [], u, newId => ([mkRoom newId u], newId)
  | r :: rs, u, newId =>
    if r.users.length < MAX_ROOM_SIZE then
      ({ r with users := r.users ++ [u] } :: rs, r.id)
    else
      let p := assignRooms rs u newId
      (r :: p.1, p.2)

/-- `assign_room_for_user(username)`.  The source's
`ROOM_PURCHASE_COUNTS.setdefault(room_id, {})` inserts an empty inner
dict, which changes no count and is the identity on the flattened
representation. -/
def assign_room_for_user (st : ServerState) (username newId : String) :
    ServerState × String :=
  let p := assignRooms st.rooms username newId
  ({ st with rooms := p.1 }, p.2)

/-- Core of `remove_user_from_room` on the `ROOMS` list: in the first
room containing the user, remove the user (`list.remove` drops the first
occurrence) and their world-state entry; if the room becomes empty, drop
the room and report its id (so that its purchase counts can be popped). -/
def removeRooms : List Room → String → List Room × Option String
  | [], _ => ([], none)
  | r :: rs, u =>
    if u ∈ r.users then
      if (r.users.erase u).length = 0 then (rs, some r.id)
      else ({ r with users := r.users.erase u, players := aerase r.players u } :: rs, none)
    else
      (r :: (removeRooms rs u).1, (removeRooms rs u).2)

/-- `remove_user_from_room(username)` (the cleanup path of `/logout`):
removes the user from their room, destroying the room and popping its
`ROOM_PURCHASE_COUNTS` entry when it becomes empty. -/
def remove_user_from_room (st : ServerState) (username : String) : ServerState :=
  let p := removeRooms st.rooms username
  { st with
    rooms := p.1,
    roomCounts :=
      match p.2 with
      | none => st.roomCounts
      | some rid => st.roomCounts.filter (fun e => decide (e.1.1 ≠ rid)) }

/-- `login`'s room step (lines 148–151): reuse the room the user is
already in, otherwise call `assign_room_for_user`. -/
def loginAssign (st : ServerState) (username newId : String) :
    ServerState × String :=
  match get_room_for_user st.rooms username with
  | some room => (st, room.id)
  | none => assign_room_for_user st username newId

/-- Helper of `on_disconnect`: pop the user's world-state entry from the
first room containing them (the source mutates the room object returned
by `get_room_for_user`). -/
def popWorldPlayer : List Room → String → List Room
  | [], _ => []
  | r :: rs, u =>
    if u ∈ r.users then { r with players := aerase r.players u } :: rs
    else r :: popWorldPlayer rs u

/-- `on_disconnect`: pop the socket from `LOGGED_IN`; if it mapped to a
user in a room, drop only the user's world-state entry and broadcast
`player_leave`.  The source deliberately keeps the user in the room's
`users` list ("We keep the user in ROOMS list until they logout"). -/
def on_disconnect (st : ServerState) (sid : String) : ServerState × List Emit :=
  match alookup st.loggedIn sid with
  | none => (st, [])
  | some username =>
    let st1 := { st with loggedIn := aerase st.loggedIn sid }
    match get_room_for_user st1.rooms username with
    | none => (st1, [])
    | some room =>
      ({ st1 with rooms := popWorldPlayer st1.rooms username },
       [⟨.playerLeave username, some room.id, true⟩])

/-- Helper of `on_move`: in the first room containing the user, write
`{x, y}` into their world-state dict (`players.get(username, {})` then
`update`), keeping any other fields. -/
def moveInRooms : List Room → String → Int → Int → List Room
  | [], _, _, _ => []
  | r :: rs, u, x, y =>
    if u ∈ r.users then
      let p := (alookup r.players u).getD WPlayer.empty
      { r with players := aupdate r.players u { p with x := some x, y := some y } } :: rs
    else r :: moveInRooms rs u x y

/-- `on_move(data)`: resolve the socket to a user and their room, store
the submitted coordinates in the room's world state, and emit
`player_moved` to the room with `include_self=False`.  The source's
comment says "clamp or accept" and the code accepts: no clamping. -/
def on_move (st : ServerState) (sid : String) (x y : Int) :
    ServerState × List Emit :=
  match alookup st.loggedIn sid with
  | none => (st, [])
  | some username =>
    match get_room_for_user st.rooms username with
    | none => (st, [])
    | some room =>
      ({ st with rooms := moveInRooms st.rooms username x y },
       [⟨.playerMoved username x y, some room.id, false⟩])

/-- `on_party_invite(data)`: resolve the socket to a host and their
room, then only emit `party_notification` to the room.  No invite
record, timestamp or TTL is stored anywhere. -/
def on_party_invite (st : ServerState) (sid : String) : ServerState × List Emit :=
  match alookup st.loggedIn sid with
  | none => (st, [])
  | some host =>
    match get_room_for_user st.rooms host with
    | none => (st, [])
    | some room => (st, [⟨.partyNotification host, some room.id, true⟩])

/-- Helper of `on_party_response`: in the first room containing the
host, run `players.setdefault(guest, {})["in_house"] = True` — the
guest's world dict keeps its other fields (position included) and only
`in_house` changes. -/
def acceptInRooms : List Room → String → String → List Room
  | [], _, _ => []
  | r :: rs, host, guest =>
    if host ∈ r.users then
      let p := (alookup r.players guest).getD WPlayer.empty
      { r with players := aupdate r.players guest { p with inHouse := some true } } :: rs
    else r :: acceptInRooms rs host guest

/-- `on_party_response(data)`: resolve the responder's socket, look up
the host's room; emit `party_failed` to the responder alone when the
host has no room.  On `"accept"`, set the responder's `in_house` flag in
the host's room and broadcast `joined_party`; otherwise broadcast
`party_declined`.  No expiry or timestamp is consulted. -/
def on_party_response (st : ServerState) (sid host response : String) :
    ServerState × List Emit :=
  match alookup st.loggedIn sid with
  | none => (st, [])
  | some username =>
    match get_room_for_user st.rooms host with
    | none => (st, [⟨.partyFailed, none, true⟩])
    | some room =>
      if response = "accept" then
        ({ st with rooms := acceptInRooms st.rooms host username },
         [⟨.joinedParty host username, some room.id, true⟩])
      else
        (st, [⟨.partyDeclined host username, some room.id, true⟩])

/-- `on_tap_player(data)` (`"donate"` and `"attack"` actions): the
donation branch checks `amount <= 0 or USERS[username]["coins"] <
amount` (short-circuit order as in the source), then debits the sender
and credits the target sequentially.  `none` models a `KeyError` on
`USERS[...]`. -/
def on_tap_player (st : ServerState) (sid target action : String) (amount : Int) :
    Option (ServerState × List Emit) :=
  match alookup st.loggedIn sid with
  | none => some (st, [])
  | some username =>
    match get_room_for_user st.rooms username with
    | none => some (st, [])
    | some room =>
      if target ∈ room.users then
        if action = "donate" then
          if amount ≤ 0 then some (st, [⟨.donateFailed, none, true⟩])
          else
            match alookup st.users username with
            | none => none
            | some du =>
              if du.coins < amount then some (st, [⟨.donateFailed, none, true⟩])
              else
                let users1 := aupdate st.users username { du with coins := du.coins - amount }
                match alookup users1 target with
                | none => none
                | some tu =>
                  some ({ st with users := aupdate users1 target { tu with coins := tu.coins + amount } },
                        [⟨.donation username target amount, some room.id, true⟩])
        else if action = "attack" then
          some (st, [⟨.attacked username target, some room.id, true⟩])
        else some (st, [])
      else some (st, [])

/-- `next((it for it in GLOBAL_STORE["items"] if it["id"] == item_id),
None)`: first catalog item with the given id. -/
def findItem : List Item → String → Option Item
  | [], _ => none
  | it :: its, itemId => if it.id = itemId then some it else findItem its itemId

/-- `item["total_sold"] += 1` on the item object `next(...)` returned:
bump `totalSold` of the first item with the given id. -/
def bumpSold : List Item → String → List Item
  | [], _ => []
  | it :: its, itemId =>
    if it.id = itemId then { it with totalSold := it.totalSold + 1 } :: its
    else it :: bumpSold its itemId

/-- Room-scoped purchase count,
`ROOM_PURCHASE_COUNTS.setdefault(room_id, {}).get(item_id, 0)`. -/
def countOf (counts : List ((String × String) × Nat)) (roomId itemId : String) : Nat :=
  (alookup counts (roomId, itemId)).getD 0

/-- The source's sold-out test: `if item["limit"]:` (falsy for `None`
and `0`) guarding `count >= item["limit"]`. -/
def limitHit (limit : Option Nat) (count : Nat) : Bool :=
  match limit with
  | none => false
  | some l => decide (l ≠ 0) && decide (count ≥ l)

/-- Outcome of the `/buy/<item_id>` endpoint. -/
inductive BuyResult where
  | notFound
  | soldOut
  | insufficientFunds
  | success (coins : Int)
deriving DecidableEq

/-- `buy(item_id)`: look up the session user (a missing user would be a
`KeyError`, hence `Option`), find the item (else "Item not found"),
test the room-scoped limit (else "Item sold out in this server"), test
the coins (else "Not enough coins"); on success debit the price, append
the item id to the inventory, bump `total_sold` and the room counter,
and return the new balance.  `roomId` is the session's `room_id`. -/
def buy (st : ServerState) (username itemId roomId : String) :
    Option (ServerState × BuyResult) :=
  match alookup st.users username with
  | none => none
  | some user =>
    match findItem st.items itemId with
    | none => some (st, .notFound)
    | some item =>
      let count := countOf st.roomCounts roomId itemId
      if limitHit item.limit count then some (st, .soldOut)
      else if user.coins < item.price then some (st, .insufficientFunds)
      else
        some ({ st with
                users := aupdate st.users username
                  { user with coins := user.coins - item.price,
                              inventory := user.inventory ++ [itemId] },
                items := bumpSold st.items itemId,
                roomCounts := aupdate st.roomCounts (roomId, itemId) (count + 1) },
              .success (user.coins - item.price))

/-- Index of the first room with a free slot (`len(room["users"]) <
MAX_ROOM_SIZE`), the room `assign_room_for_user`'s scan picks. -/
def firstFree : List Room → Option Nat
  | [] => none
  | r :: rs =>
    if r.users.length < MAX_ROOM_SIZE then some 0
    else (firstFree rs).map (· + 1)

/-- First room of the list with the given id (resolving a room id). -/
def roomById (rooms : List Room) (rid : String) : Option Room :=
  match rooms with
  | [] => none
  | r :: rs => if r.id = rid then some r else roomById rs rid

/-- Observation: the stored world-state `x` of a user (via their current
room). -/
def worldX (st : ServerState) (u : String) : Option Int :=
  (get_room_for_user st.rooms u).bind fun r => (alookup r.players u).bind fun p => p.x

/-- Observation: the stored world-state `y` of a user. -/
def worldY (st : ServerState) (u : String) : Option Int :=
  (get_room_for_user st.rooms u).bind fun r => (alookup r.players u).bind fun p => p.y

/-- Observation: the stored `in_house` flag of a user. -/
def worldInHouse (st : ServerState) (u : String) : Option Bool :=
  (get_room_for_user st.rooms u).bind fun r => (alookup r.players u).bind fun p => p.inHouse

/-- Observation: `total_sold` of the first catalog item with the given
id. -/
def soldOf (items : List Item) (itemId : String) : Option Nat :=
  (findItem items itemId).map (·.totalSold)

/-- Sum of all coin balances in `USERS`. -/
def totalCoins (l : List (String × UserRec)) : Int :=
  (l.map (fun p => p.2.coins)).sum

/-- No room of the state has an empty member list. -/
def NoEmptyRoom (st : ServerState) : Prop :=
  ∀ r ∈ st.rooms, r.users ≠ []

/-- Folding a sequence of `assign_room_for_user` calls (username,
fresh-id pairs) over a `ROOMS` list. -/
def assignFold (calls : List (String × String)) (rooms : List Room) : List Room :=
  calls.foldl (fun rs c => (assignRooms rs c.1 c.2).1) rooms

/-- Running a sequence of `buy` calls (username, itemId, roomId
triples), propagating a `KeyError` as `none`. -/
def buySeq : ServerState → List (String × String × String) → Option ServerState
  | st, [] => some st
  | st, c :: cs =>
    match buy st c.1 c.2.1 c.2.2 with
    | none => none
    | some (st', _) => buySeq st' cs

/-- Per-room scarcity invariant: for every catalog item with a nonzero
limit, no room's purchase counter exceeds that limit. -/
def RoomCountInv (st : ServerState) : Prop :=
  ∀ roomId itemId item l, findItem st.items itemId = some item →
    item.limit = some l → l ≠ 0 → countOf st.roomCounts roomId itemId ≤ l

/-! ### Shared association-list lemmas -/

theorem alookup_aupdate_self {κ α : Type} [DecidableEq κ] (l : List (κ × α)) (k : κ) (v : α) :
    alookup (aupdate l k v) k = some v := by
  induction l with
  | nil => simp [aupdate, alookup]
  | cons p rest ih =>
    obtain ⟨pk, pv⟩ := p
    by_cases h : pk = k
    · simp [aupdate, alookup, h]
    · simp [aupdate, alookup, h, ih]

theorem alookup_aupdate_ne {κ α : Type} [DecidableEq κ] (l : List (κ × α)) (k k' : κ) (v : α)
    (h : k' ≠ k) : alookup (aupdate l k v) k' = alookup l k' := by
  induction l with
  | nil => simp [aupdate, alookup, Ne.symm h]
  | cons p rest ih =>
    obtain ⟨pk, pv⟩ := p
    by_cases hp : pk = k
    · subst hp
      simp [aupdate, alookup, Ne.symm h]
    · simp [aupdate, alookup, hp, ih]

theorem totalCoins_aupdate (l : List (String × UserRec)) (k : String) (v w : UserRec)
    (h : alookup l k = some v) :
    totalCoins (aupdate l k w) = totalCoins l - v.coins + w.coins := by
  induction l with
  | nil => simp [alookup] at h
  | cons p rest ih =>
    obtain ⟨pk, pv⟩ := p
    by_cases hp : pk = k
    · subst hp
      simp [alookup] at h
      subst h
      simp [aupdate, totalCoins]
      ring
    · simp [alookup, hp] at h
      have := ih h
      simp [aupdate, hp, totalCoins] at this ⊢
      omega

/-! ### Room-assignment lemmas -/

theorem assignRooms_capacity (rooms : List Room) (u newId : String)
    (h : ∀ r ∈ rooms, r.users.length ≤ MAX_ROOM_SIZE) :
    ∀ r ∈ (assignRooms rooms u newId).1, r.users.length ≤ MAX_ROOM_SIZE := by
  induction rooms with
  | nil =>
    intro r hr
    simp [assignRooms, mkRoom] at hr
    subst hr
    simp [mkRoom, MAX_ROOM_SIZE]
  | cons r0 rs ih =>
    intro r hr
    by_cases hlt : r0.users.length < MAX_ROOM_SIZE
    · simp [assignRooms, hlt] at hr
      rcases hr with h1 | h2
      · subst h1
        simp
        omega
      · exact h r (by simp [h2])
    · simp [assignRooms, hlt] at hr
      rcases hr with h1 | h2
      · subst h1
        exact h r (by simp)
      · exact ih (fun r' hr' => h r' (by simp [hr'])) r h2

theorem assignFold_capacity (calls : List (String × String)) (rooms : List Room)
    (h : ∀ r ∈ rooms, r.users.length ≤ MAX_ROOM_SIZE) :
    ∀ r ∈ assignFold calls rooms, r.users.length ≤ MAX_ROOM_SIZE := by
  induction calls generalizing rooms with
  | nil => simpa [assignFold] using h
  | cons c cs ih =>
    have h1 := assignRooms_capacity rooms c.1 c.2 h
    simpa [assignFold] using ih _ h1

theorem assignRooms_full (rooms : List Room) (u newId : String)
    (h : firstFree rooms = none) :
    assignRooms rooms u newId = (rooms ++ [mkRoom newId u], newId) := by
  induction rooms with
  | nil => simp [assignRooms]
  | cons r rs ih =>
    have hlt : ¬ r.users.length < MAX_ROOM_SIZE := by
      intro hl
      simp [firstFree, hl] at h
    have h2 : firstFree rs = none := by
      simpa [firstFree, hlt] using h
    simp [assignRooms, hlt, ih h2]

theorem assignRooms_firstFree (rooms : List Room) (u newId : String) (i : Nat) (r : Room)
    (hf : firstFree rooms = some i) (hr : rooms[i]? = some r) :
    assignRooms rooms u newId
      = (rooms.set i { r with users := r.users ++ [u] }, r.id) := by
  induction rooms generalizing i r with
  | nil => simp [firstFree] at hf
  | cons r0 rs ih =>
    by_cases hlt : r0.users.length < MAX_ROOM_SIZE
    · simp [firstFree, hlt] at hf
      subst hf
      simp at hr
      subst hr
      simp [assignRooms, hlt]
    · simp [firstFree, hlt] at hf
      obtain ⟨j, hj, hji⟩ := hf
      subst hji
      simp at hr
      simp [assignRooms, hlt, ih j r hj hr]

/-- C1: under every sequence of `assign_room_for_user` calls (starting
from no rooms) every room's member count stays at or below
`MAX_ROOM_SIZE = 10`; `assignRooms` creates a new room exactly when no
existing room is under capacity, and otherwise appends the player to the
first under-capacity room in creation order, returning that room's id. -/
theorem assign_capacity_and_first_fit
    (calls : List (String × String)) (rooms : List Room) (u newId : String)
    (hcap : ∀ r ∈ rooms, r.users.length ≤ MAX_ROOM_SIZE) :
    (∀ r ∈ assignFold calls [], r.users.length ≤ MAX_ROOM_SIZE) ∧
    (∀ r ∈ (assignRooms rooms u newId).1, r.users.length ≤ MAX_ROOM_SIZE) ∧
    (firstFree rooms = none →
      assignRooms rooms u newId = (rooms ++ [mkRoom newId u], newId)) ∧
    (∀ i r, firstFree rooms = some i → rooms[i]? = some r →
      assignRooms rooms u newId
        = (rooms.set i { r with users := r.users ++ [u] }, r.id)) :=
  ⟨assignFold_capacity calls [] (by simp),
   assignRooms_capacity rooms u newId hcap,
   fun h => assignRooms_full rooms u newId h,
   fun i r hf hr => assignRooms_firstFree rooms u newId i r hf hr⟩

theorem assign_capacity_and_first_fit_witness :
    (∀ r ∈ [mkRoom "r1" "a"], r.users.length ≤ MAX_ROOM_SIZE) ∧
    ((∀ r ∈ assignFold [("a", "r1")] [], r.users.length ≤ MAX_ROOM_SIZE) ∧
     (∀ r ∈ (assignRooms [mkRoom "r1" "a"] "b" "r2").1,
        r.users.length ≤ MAX_ROOM_SIZE) ∧
     (firstFree [mkRoom "r1" "a"] = none →
       assignRooms [mkRoom "r1" "a"] "b" "r2"
         = ([mkRoom "r1" "a"] ++ [mkRoom "r2" "b"], "r2")) ∧
     (∀ i r, firstFree [mkRoom "r1" "a"] = some i →
        [mkRoom "r1" "a"][i]? = some r →
        assignRooms [mkRoom "r1" "a"] "b" "r2"
          = ([mkRoom "r1" "a"].set i { r with users := r.users ++ ["b"] }, r.id))) :=
  ⟨by decide,
   assign_capacity_and_first_fit [("a", "r1")] [mkRoom "r1" "a"] "b" "r2" (by decide)⟩

/-! ### Marketplace lemmas -/

theorem findItem_bumpSold (items : List Item) (itemId : String) (item : Item)
    (h : findItem items itemId = some item) :
    findItem (bumpSold items itemId) itemId
      = some { item with totalSold := item.totalSold + 1 } := by
  induction items with
  | nil => simp [findItem] at h
  | cons it its ih =>
    by_cases hid : it.id = itemId
    · simp [findItem, hid] at h
      subst h
      simp [bumpSold, hid, findItem]
    · simp [findItem, hid] at h
      simp [bumpSold, hid, findItem, ih h]

/-- C2: for a known player, `buy` fails with "Item not found" on an
unknown item id, with "sold out" when the room-scoped limit test fires,
and with "Not enough coins" when the balance is below the price — each
failure returning the state unchanged; on success it debits exactly the
price, appends the item id to the inventory, bumps `total_sold` and the
room counter by one each, returns the new balance, and a non-negative
balance stays non-negative. -/
theorem buy_failure_and_success_semantics
    (st : ServerState) (username itemId roomId : String) (user : UserRec)
    (hu : alookup st.users username = some user) :
    (findItem st.items itemId = none →
        buy st username itemId roomId = some (st, .notFound)) ∧
    (∀ item, findItem st.items itemId = some item →
        limitHit item.limit (countOf st.roomCounts roomId itemId) = true →
        buy st username itemId roomId = some (st, .soldOut)) ∧
    (∀ item, findItem st.items itemId = some item →
        limitHit item.limit (countOf st.roomCounts roomId itemId) = false →
        user.coins < item.price →
        buy st username itemId roomId = some (st, .insufficientFunds)) ∧
    (∀ item, findItem st.items itemId = some item →
        limitHit item.limit (countOf st.roomCounts roomId itemId) = false →
        item.price ≤ user.coins →
        ∃ st', buy st username itemId roomId
            = some (st', .success (user.coins - item.price)) ∧
          alookup st'.users username
            = some { user with coins := user.coins - item.price,
                               inventory := user.inventory ++ [itemId] } ∧
          soldOf st'.items itemId = some (item.totalSold + 1) ∧
          countOf st'.roomCounts roomId itemId
            = countOf st.roomCounts roomId itemId + 1 ∧
          st'.rooms = st.rooms ∧ st'.loggedIn = st.loggedIn ∧
          (0 ≤ user.coins → 0 ≤ user.coins - item.price)) := by
  refine ⟨?_, ?_, ?_, ?_⟩
  · intro hni
    simp [buy, hu, hni]
  · intro item hi hlim
    simp [buy, hu, hi, hlim]
  · intro item hi hlim hc
    simp [buy, hu, hi, hlim, hc]
  · intro item hi hlim hc
    have hnc : ¬ user.coins < item.price := not_lt.mpr hc
    refine ⟨{ st with
        users := aupdate st.users username
          { user with coins := user.coins - item.price,
                      inventory := user.inventory ++ [itemId] },
        items := bumpSold st.items itemId,
        roomCounts := aupdate st.roomCounts (roomId, itemId)
          (countOf st.roomCounts roomId itemId + 1) },
      ?_, ?_, ?_, ?_, rfl, rfl, fun h0 => by omega⟩
    · simp [buy, hu, hi, hlim, hnc]
    · exact alookup_aupdate_self ..
    · simp [soldOf, findItem_bumpSold st.items itemId item hi]
    · simp [countOf, alookup_aupdate_self]

/-- Concrete single-user state for the C2 witness. -/
def stC2 : ServerState :=
  ⟨[("alice", ⟨100, 0, 0, []⟩)], [], [⟨"sword", 10, some 1, 0⟩], [], []⟩

/-- The user record of `stC2`. -/
def stC2user : UserRec := ⟨100, 0, 0, []⟩

/-- The catalog item of `stC2`. -/
def stC2item : Item := ⟨"sword", 10, some 1, 0⟩

theorem buy_failure_and_success_semantics_witness :
    alookup stC2.users "alice" = some stC2user ∧
    findItem stC2.items "sword" = some stC2item ∧
    limitHit stC2item.limit (countOf stC2.roomCounts "room1" "sword") = false ∧
    stC2item.price ≤ stC2user.coins ∧
    (∃ st', buy stC2 "alice" "sword" "room1"
        = some (st', .success (stC2user.coins - stC2item.price)) ∧
      alookup st'.users "alice"
        = some { stC2user with coins := stC2user.coins - stC2item.price,
                               inventory := stC2user.inventory ++ ["sword"] } ∧
      soldOf st'.items "sword" = some (stC2item.totalSold + 1) ∧
      countOf st'.roomCounts "room1" "sword"
        = countOf stC2.roomCounts "room1" "sword" + 1 ∧
      st'.rooms = stC2.rooms ∧ st'.loggedIn = stC2.loggedIn ∧
      (0 ≤ stC2user.coins → 0 ≤ stC2user.coins - stC2item.price)) :=
  ⟨by decide, by decide, by decide, by decide,
   (buy_failure_and_success_semantics stC2 "alice" "sword" "room1" stC2user
      (by decide)).2.2.2 stC2item (by decide) (by decide) (by decide)⟩

/-- `bumpSold` changes no item's `limit`. -/
theorem findItem_bumpSold_limit (items : List Item) (bumpId itemId : String) :
    (findItem (bumpSold items bumpId) itemId).map Item.limit
      = (findItem items itemId).map Item.limit := by
  induction items with
  | nil => simp [bumpSold, findItem]
  | cons it its ih =>
    by_cases hb : it.id = bumpId
    · subst hb
      by_cases hq : it.id = itemId
      · subst hq
        simp [bumpSold, findItem]
      · simp [bumpSold, findItem, hq]
    · by_cases hq : it.id = itemId
      · subst hq
        simp [bumpSold, findItem, hb]
      · simp [bumpSold, findItem, hb, hq, ih]

/-- A single `buy` preserves the per-room scarcity invariant. -/
theorem buy_preserves_roomCountInv (st : ServerState) (u iid rid : String)
    (st' : ServerState) (res : BuyResult) (hinv : RoomCountInv st)
    (h : buy st u iid rid = some (st', res)) : RoomCountInv st' := by
  rcases hu : alookup st.users u with _ | user
  · simp [buy, hu] at h
  rcases hi : findItem st.items iid with _ | item
  · simp [buy, hu, hi] at h
    exact h.1 ▸ hinv
  cases hlim : limitHit item.limit (countOf st.roomCounts rid iid) with
  | true =>
    simp [buy, hu, hi, hlim] at h
    exact h.1 ▸ hinv
  | false =>
    by_cases hc : user.coins < item.price
    · simp [buy, hu, hi, hlim, hc] at h
      exact h.1 ▸ hinv
    · simp [buy, hu, hi, hlim, hc] at h
      rw [← h.1]
      intro roomId itemId itm l hfind hliml hl0
      have hlimEq := findItem_bumpSold_limit st.items iid itemId
      rw [hfind] at hlimEq
      rcases hsrc : findItem st.items itemId with _ | item0
      · rw [hsrc] at hlimEq
        simp at hlimEq
      · rw [hsrc] at hlimEq
        simp at hlimEq
      -- hlimEq : itm.limit = item0.limit
        by_cases hkey : (roomId, itemId) = (rid, iid)
        · have hitem : item0 = item := by
            have : itemId = iid := (Prod.mk.injEq .. ▸ hkey).2
            rw [this] at hsrc
            rw [hsrc] at hi
            exact Option.some.injEq .. ▸ hi
          have hcnt : countOf (aupdate st.roomCounts (rid, iid)
              (countOf st.roomCounts rid iid + 1)) roomId itemId
              = countOf st.roomCounts rid iid + 1 := by
            simp only [countOf, hkey, alookup_aupdate_self, Option.getD_some]
          simp only [hcnt]
          have hlim' : limitHit item.limit (countOf st.roomCounts rid iid) = false := hlim
          rw [hitem] at hlimEq
          rw [hliml] at hlimEq
          rw [← hlimEq] at hlim'
          simp [limitHit, hl0] at hlim'
          omega
        · have hcnt : countOf (aupdate st.roomCounts (rid, iid)
              (countOf st.roomCounts rid iid + 1)) roomId itemId
              = countOf st.roomCounts roomId itemId := by
            simp only [countOf, alookup_aupdate_ne _ _ _ _ hkey]
          rw [hcnt]
          exact hinv roomId itemId item0 l hsrc (hlimEq ▸ hliml) hl0

/-- Concrete two-room state for C3: one catalog item with limit 1,
players with 100 coins in two different rooms. -/
def stC3 : ServerState :=
  ⟨[("alice", ⟨100, 0, 0, []⟩), ("bob", ⟨100, 0, 0, []⟩)],
   [⟨"room1", ["alice"], []⟩, ⟨"room2", ["bob"], []⟩],
   [⟨"sword", 10, some 1, 0⟩], [], []⟩

/-- C3 counterexample: the sold-out check compares the per-room counter
against the limit, so with `limit = 1` a purchase in `room1` and then
one in `room2` both succeed and `total_sold` reaches 2 > 1. -/
theorem totalSold_exceeds_limit_counterexample :
    (findItem stC3.items "sword").map Item.limit = some (some 1) ∧
    ((buy stC3 "alice" "sword" "room1").bind fun p =>
        buy p.1 "bob" "sword" "room2").map
      (fun p => (soldOf p.1.items "sword", p.2))
      = some (some 2, .success 90) ∧
    ¬ (2 : Nat) ≤ 1 := by decide

/-- C3 amended: for every catalog item whose limit is set and nonzero,
it is the room-scoped purchase counter of each room (not the global
`total_sold`) that never exceeds the limit, under any sequence of `buy`
calls from a state satisfying the invariant. -/
theorem room_scoped_count_le_limit (calls : List (String × String × String))
    (st st' : ServerState) (hinv : RoomCountInv st)
    (h : buySeq st calls = some st') : RoomCountInv st' := by
  induction calls generalizing st with
  | nil =>
    simp [buySeq] at h
    exact h ▸ hinv
  | cons c cs ih =>
    rcases hb : buy st c.1 c.2.1 c.2.2 with _ | p
    · simp [buySeq, hb] at h
    · obtain ⟨st1, res⟩ := p
      simp only [buySeq, hb] at h
      exact ih st1 (buy_preserves_roomCountInv st c.1 c.2.1 c.2.2 st1 res hinv hb) h

/-- The state `stC3` after one successful purchase by alice in room1. -/
def stC3after : ServerState :=
  ⟨[("alice", ⟨90, 0, 0, ["sword"]⟩), ("bob", ⟨100, 0, 0, []⟩)],
   [⟨"room1", ["alice"], []⟩, ⟨"room2", ["bob"], []⟩],
   [⟨"sword", 10, some 1, 1⟩], [(("room1", "sword"), 1)], []⟩

theorem room_scoped_count_le_limit_witness :
    RoomCountInv stC3 ∧
    buySeq stC3 [("alice", "sword", "room1")] = some stC3after ∧
    RoomCountInv stC3after :=
  ⟨fun _ _ _ _ _ _ _ => by simp [countOf, alookup],
   by decide,
   room_scoped_count_le_limit [("alice", "sword", "room1")] stC3 stC3after
     (fun _ _ _ _ _ _ _ => by simp [countOf, alookup]) (by decide)⟩

/-! ### Movement and party lemmas -/

theorem get_room_for_user_spec (rooms : List Room) (u : String) (room : Room)
    (h : get_room_for_user rooms u = some room) : room ∈ rooms ∧ u ∈ room.users := by
  induction rooms with
  | nil => simp [get_room_for_user] at h
  | cons r rs ih =>
    by_cases hm : u ∈ r.users
    · simp [get_room_for_user, hm] at h
      subst h
      exact ⟨by simp, hm⟩
    · simp [get_room_for_user, hm] at h
      obtain ⟨h1, h2⟩ := ih h
      exact ⟨by simp [h1], h2⟩

theorem get_room_for_user_moveInRooms (rooms : List Room) (u : String) (x y : Int)
    (room : Room) (h : get_room_for_user rooms u = some room) :
    get_room_for_user (moveInRooms rooms u x y) u
      = some { room with
               players := aupdate room.players u
                            { (alookup room.players u).getD WPlayer.empty with
                              x := some x, y := some y } } := by
  induction rooms with
  | nil => simp [get_room_for_user] at h
  | cons r rs ih =>
    by_cases hm : u ∈ r.users
    · simp [get_room_for_user, hm] at h
      subst h
      simp [moveInRooms, hm, get_room_for_user]
    · simp [get_room_for_user, hm] at h
      simp [moveInRooms, hm, get_room_for_user, ih h]

theorem get_room_for_user_acceptInRooms (rooms : List Room) (host guest : String)
    (room : Room) (h : get_room_for_user rooms host = some room) :
    get_room_for_user (acceptInRooms rooms host guest) host
      = some { room with
               players := aupdate room.players guest
                            { (alookup room.players guest).getD WPlayer.empty with
                              inHouse := some true } } := by
  induction rooms with
  | nil => simp [get_room_for_user] at h
  | cons r rs ih =>
    by_cases hm : host ∈ r.users
    · simp [get_room_for_user, hm] at h
      subst h
      simp [acceptInRooms, hm, get_room_for_user]
    · simp [get_room_for_user, hm] at h
      simp [acceptInRooms, hm, get_room_for_user, ih h]

/-- Concrete state for C4: two connected players in one room. -/
def stC4room : Room :=
  ⟨"room1", ["alice", "bob"],
   [("alice", ⟨some 200, some 200, some false⟩),
    ("bob", ⟨some 300, some 300, some false⟩)]⟩

/-- Concrete state for C4. -/
def stC4 : ServerState :=
  ⟨[("alice", ⟨100, 100, 100, []⟩), ("bob", ⟨100, 120, 100, []⟩)],
   [stC4room], [], [], [("sidA", "alice"), ("sidB", "bob")]⟩

/-- C4 counterexample: a move to (900, 50) stores x = 900 verbatim —
the handler performs no clamping to any map maximum such as 800. -/
theorem move_not_clamped_counterexample :
    worldX (on_move stC4 "sidA" 900 50).1 "alice" = some 900 ∧
    worldY (on_move stC4 "sidA" 900 50).1 "alice" = some 50 ∧
    (900 : Int) ≠ 800 := by decide

/-- C4 amended: `on_move` stores the submitted coordinates unchanged
(no clamping into map bounds) and broadcasts `player_moved` to the
sender's room with `include_self=False`, so every other member is a
recipient and the sender is not. -/
theorem move_stores_submitted_coordinates
    (st : ServerState) (sid username : String) (x y : Int) (room : Room)
    (hl : alookup st.loggedIn sid = some username)
    (hr : get_room_for_user st.rooms username = some room) :
    worldX (on_move st sid x y).1 username = some x ∧
    worldY (on_move st sid x y).1 username = some y ∧
    (on_move st sid x y).2 = [⟨.playerMoved username x y, some room.id, false⟩] ∧
    username ∉ roomRecipients room username false ∧
    (∀ m ∈ room.users, m ≠ username → m ∈ roomRecipients room username false) := by
  have hst : (on_move st sid x y).1 = { st with rooms := moveInRooms st.rooms username x y } := by
    simp [on_move, hl, hr]
  have hget := get_room_for_user_moveInRooms st.rooms username x y room hr
  refine ⟨?_, ?_, by simp [on_move, hl, hr], ?_, ?_⟩
  · rw [hst]
    simp [worldX, hget, alookup_aupdate_self]
  · rw [hst]
    simp [worldY, hget, alookup_aupdate_self]
  · simp [roomRecipients]
  · intro m hm hne
    simp [roomRecipients, List.mem_filter, hm, hne]

theorem move_stores_submitted_coordinates_witness :
    alookup stC4.loggedIn "sidA" = some "alice" ∧
    get_room_for_user stC4.rooms "alice" = some stC4room ∧
    (worldX (on_move stC4 "sidA" 900 50).1 "alice" = some 900 ∧
     worldY (on_move stC4 "sidA" 900 50).1 "alice" = some 50 ∧
     (on_move stC4 "sidA" 900 50).2
       = [⟨.playerMoved "alice" 900 50, some stC4room.id, false⟩] ∧
     "alice" ∉ roomRecipients stC4room "alice" false ∧
     (∀ m ∈ stC4room.users, m ≠ "alice" →
        m ∈ roomRecipients stC4room "alice" false)) :=
  ⟨by decide, by decide,
   move_stores_submitted_coordinates stC4 "sidA" "alice" 900 50 stC4room
     (by decide) (by decide)⟩

/-- Concrete state for C5/C6: host "h" (home at (100, 100)) and guest
"g" (standing at (200, 200), not in a house) share room1. -/
def stC5room : Room :=
  ⟨"room1", ["h", "g"],
   [("h", ⟨some 100, some 100, some false⟩),
    ("g", ⟨some 200, some 200, some false⟩)]⟩

/-- Concrete state for C5/C6. -/
def stC5 : ServerState :=
  ⟨[("h", ⟨100, 100, 100, []⟩), ("g", ⟨100, 140, 100, []⟩)],
   [stC5room], [], [], [("sidH", "h"), ("sidG", "g")]⟩

/-- C5 counterexample: accepting a party invite leaves the responder's
position untouched (still (200, 200), not the host's home (100, 100))
and flips the responder's `in_house` flag from false to true. -/
theorem party_accept_position_counterexample :
    (alookup stC5.users "h").map UserRec.homeX = some 100 ∧
    (alookup stC5.users "h").map UserRec.homeY = some 100 ∧
    worldX stC5 "g" = some 200 ∧
    worldInHouse stC5 "g" = some false ∧
    worldX (on_party_response stC5 "sidG" "h" "accept").1 "g" = some 200 ∧
    worldY (on_party_response stC5 "sidG" "h" "accept").1 "g" = some 200 ∧
    worldInHouse (on_party_response stC5 "sidG" "h" "accept").1 "g" = some true ∧
    (200 : Int) ≠ 100 := by decide

/-- C5 amended: on accept, the responder's world entry in the host's
room keeps all its fields except `in_house`, which is set to `true`
(the position is NOT moved to the host's home), and `joined_party` is
broadcast to the room. -/
theorem party_accept_sets_flag_not_position
    (st : ServerState) (sid guest host : String) (room : Room) (p : WPlayer)
    (hl : alookup st.loggedIn sid = some guest)
    (hr : get_room_for_user st.rooms host = some room)
    (hp : alookup room.players guest = some p) :
    get_room_for_user (on_party_response st sid host "accept").1.rooms host
      = some { room with
               players := aupdate room.players guest { p with inHouse := some true } } ∧
    alookup (aupdate room.players guest { p with inHouse := some true }) guest
      = some { p with inHouse := some true } ∧
    ({ p with inHouse := some true }).x = p.x ∧
    ({ p with inHouse := some true }).y = p.y ∧
    (on_party_response st sid host "accept").2
      = [⟨.joinedParty host guest, some room.id, true⟩] := by
  have hst : (on_party_response st sid host "accept").1
      = { st with rooms := acceptInRooms st.rooms host guest } := by
    simp [on_party_response, hl, hr]
  refine ⟨?_, alookup_aupdate_self .., rfl, rfl, by simp [on_party_response, hl, hr]⟩
  rw [hst]
  have := get_room_for_user_acceptInRooms st.rooms host guest room hr
  rw [hp] at this
  simpa using this

theorem party_accept_sets_flag_not_position_witness :
    alookup stC5.loggedIn "sidG" = some "g" ∧
    get_room_for_user stC5.rooms "h" = some stC5room ∧
    alookup stC5room.players "g" = some ⟨some 200, some 200, some false⟩ ∧
    (get_room_for_user (on_party_response stC5 "sidG" "h" "accept").1.rooms "h"
       = some { stC5room with
                players := aupdate stC5room.players "g"
                  { (⟨some 200, some 200, some false⟩ : WPlayer) with
                    inHouse := some true } } ∧
     alookup (aupdate stC5room.players "g"
         { (⟨some 200, some 200, some false⟩ : WPlayer) with inHouse := some true }) "g"
       = some { (⟨some 200, some 200, some false⟩ : WPlayer) with inHouse := some true } ∧
     ({ (⟨some 200, some 200, some false⟩ : WPlayer) with inHouse := some true }).x
       = (⟨some 200, some 200, some false⟩ : WPlayer).x ∧
     ({ (⟨some 200, some 200, some false⟩ : WPlayer) with inHouse := some true }).y
       = (⟨some 200, some 200, some false⟩ : WPlayer).y ∧
     (on_party_response stC5 "sidG" "h" "accept").2
       = [⟨.joinedParty "h" "g", some stC5room.id, true⟩]) :=
  ⟨by decide, by decide, by decide,
   party_accept_sets_flag_not_position stC5 "sidG" "g" "h" stC5room
     ⟨some 200, some 200, some false⟩ (by decide) (by decide) (by decide)⟩

/-- C6 counterexample: the party invite stores no server-side state (so
there is no `expiresAt` to compare against), and the accept response —
whenever it arrives — still mutates the responder's `in_house` flag and
is answered with `joined_party`, never reported as expired. -/
theorem party_response_no_expiry_counterexample :
    (on_party_invite stC5 "sidH").1 = stC5 ∧
    (on_party_invite stC5 "sidH").2
      = [⟨.partyNotification "h", some "room1", true⟩] ∧
    (on_party_response stC5 "sidG" "h" "accept").1 ≠ stC5 ∧
    worldInHouse (on_party_response stC5 "sidG" "h" "accept").1 "g" = some true ∧
    (on_party_response stC5 "sidG" "h" "accept").2
      = [⟨.joinedParty "h" "g", some "room1", true⟩] := by decide

/-- C6 amended: no invite record or TTL exists server-side —
`party_invite` only broadcasts a notification and leaves the state
unchanged, and `party_response` performs no staleness check: whenever
the host is in a room, an accept (no matter how long after the invite)
sets the responder's `in_house` flag to true and broadcasts
`joined_party`.  The 10-second window exists only in the client UI. -/
theorem party_response_never_expired
    (st : ServerState) (sidH sidG host guest : String) (room : Room)
    (hH : alookup st.loggedIn sidH = some host)
    (hG : alookup st.loggedIn sidG = some guest)
    (hr : get_room_for_user st.rooms host = some room) :
    (on_party_invite st sidH).1 = st ∧
    ((get_room_for_user (on_party_response st sidG host "accept").1.rooms host).bind
        fun r => (alookup r.players guest).bind WPlayer.inHouse) = some true ∧
    (on_party_response st sidG host "accept").2
      = [⟨.joinedParty host guest, some room.id, true⟩] := by
  refine ⟨by simp [on_party_invite, hH, hr], ?_, by simp [on_party_response, hG, hr]⟩
  have hst : (on_party_response st sidG host "accept").1
      = { st with rooms := acceptInRooms st.rooms host guest } := by
    simp [on_party_response, hG, hr]
  rw [hst]
  simp [get_room_for_user_acceptInRooms st.rooms host guest room hr, alookup_aupdate_self]

theorem party_response_never_expired_witness :
    alookup stC5.loggedIn "sidH" = some "h" ∧
    alookup stC5.loggedIn "sidG" = some "g" ∧
    get_room_for_user stC5.rooms "h" = some stC5room ∧
    ((on_party_invite stC5 "sidH").1 = stC5 ∧
     ((get_room_for_user (on_party_response stC5 "sidG" "h" "accept").1.rooms "h").bind
         fun r => (alookup r.players "g").bind WPlayer.inHouse) = some true ∧
     (on_party_response stC5 "sidG" "h" "accept").2
       = [⟨.joinedParty "h" "g", some stC5room.id, true⟩]) :=
  ⟨by decide, by decide, by decide,
   party_response_never_expired stC5 "sidH" "sidG" "h" "g" stC5room
     (by decide) (by decide) (by decide)⟩

/-! ### Room-lifecycle lemmas -/

theorem removeRooms_no_empty (rooms : List Room) (u : String)
    (h : ∀ r ∈ rooms, r.users ≠ []) :
    ∀ r ∈ (removeRooms rooms u).1, r.users ≠ [] := by
  induction rooms with
  | nil => simp [removeRooms]
  | cons r0 rs ih =>
    intro r hr
    by_cases hm : u ∈ r0.users
    · by_cases hz : (r0.users.erase u).length = 0
      · rw [removeRooms, if_pos hm, if_pos hz] at hr
        exact h r (List.mem_cons_of_mem r0 hr)
      · rw [removeRooms, if_pos hm, if_neg hz] at hr
        rcases List.mem_cons.mp hr with rfl | h2
        · intro hnil
          exact hz (by rw [show (r0.users.erase u) = [] from hnil]; rfl)
        · exact h r (List.mem_cons_of_mem r0 h2)
    · rw [removeRooms, if_neg hm] at hr
      rcases List.mem_cons.mp hr with rfl | h2
      · exact h r (List.mem_cons_self r rs)
      · exact ih (fun r' hr' => h r' (List.mem_cons_of_mem r0 hr')) r h2

theorem assignRooms_no_empty (rooms : List Room) (u newId : String)
    (h : ∀ r ∈ rooms, r.users ≠ []) :
    ∀ r ∈ (assignRooms rooms u newId).1, r.users ≠ [] := by
  induction rooms with
  | nil =>
    intro r hr
    rw [assignRooms] at hr
    rcases List.mem_cons.mp hr with rfl | h2
    · simp [mkRoom]
    · simp at h2
  | cons r0 rs ih =>
    intro r hr
    by_cases hlt : r0.users.length < MAX_ROOM_SIZE
    · rw [assignRooms, if_pos hlt] at hr
      rcases List.mem_cons.mp hr with rfl | h2
      · simp
      · exact h r (List.mem_cons_of_mem r0 h2)
    · rw [assignRooms, if_neg hlt] at hr
      rcases List.mem_cons.mp hr with rfl | h2
      · exact h r (List.mem_cons_self r rs)
      · exact ih (fun r' hr' => h r' (List.mem_cons_of_mem r0 hr')) r h2

theorem popWorldPlayer_users (rooms : List Room) (u : String) :
    (popWorldPlayer rooms u).map (fun r => (r.id, r.users))
      = rooms.map (fun r => (r.id, r.users)) := by
  induction rooms with
  | nil => rfl
  | cons r rs ih =>
    by_cases hm : u ∈ r.users <;> simp [popWorldPlayer, hm, ih]

theorem on_disconnect_users (st : ServerState) (sid : String) :
    (on_disconnect st sid).1.rooms.map (fun r => (r.id, r.users))
      = st.rooms.map (fun r => (r.id, r.users)) := by
  rcases hl : alookup st.loggedIn sid with _ | username
  · simp [on_disconnect, hl]
  · rcases hr : get_room_for_user st.rooms username with _ | room
    · simp [on_disconnect, hl, hr]
    · simp [on_disconnect, hl, hr, popWorldPlayer_users]

theorem roomById_none (rooms : List Room) (rid : String)
    (h : ∀ r ∈ rooms, r.id ≠ rid) : roomById rooms rid = none := by
  induction rooms with
  | nil => rfl
  | cons r rs ih =>
    have h0 : ¬ r.id = rid := h r (List.mem_cons_self r rs)
    simp only [roomById, if_neg h0]
    exact ih (fun r' hr' => h r' (List.mem_cons_of_mem r hr'))

theorem removeRooms_destroys_id (rooms : List Room) (u : String) (room : Room)
    (hn : (rooms.map Room.id).Nodup)
    (hr : get_room_for_user rooms u = some room)
    (hz : room.users.erase u = []) :
    roomById (removeRooms rooms u).1 room.id = none := by
  induction rooms with
  | nil => simp [get_room_for_user] at hr
  | cons r0 rs ih =>
    simp only [List.map_cons, List.nodup_cons] at hn
    obtain ⟨hn1, hn2⟩ := hn
    by_cases hm : u ∈ r0.users
    · rw [get_room_for_user, if_pos hm] at hr
      have hr' : r0 = room := Option.some.inj hr
      have hz0 : (r0.users.erase u).length = 0 := by
        rw [hr', hz]
        rfl
      rw [removeRooms, if_pos hm, if_pos hz0]
      apply roomById_none
      intro r' hr'' heq
      apply hn1
      have hid : r'.id = r0.id := by rw [heq, ← hr']
      rw [← hid]
      exact List.mem_map_of_mem _ hr''
    · rw [get_room_for_user, if_neg hm] at hr
      have hmem : room ∈ rs := (get_room_for_user_spec rs u room hr).1
      have hne0 : ¬ r0.id = room.id := by
        intro heq
        apply hn1
        rw [heq]
        exact List.mem_map_of_mem _ hmem
      rw [removeRooms, if_neg hm]
      show roomById (r0 :: (removeRooms rs u).1) room.id = none
      simp only [roomById, if_neg hne0]
      exact ih hn2 hr

instance (st : ServerState) : Decidable (NoEmptyRoom st) :=
  inferInstanceAs (Decidable (∀ r ∈ st.rooms, r.users ≠ []))

/-- C7: no modelled operation leaves a retained empty room —
`remove_user_from_room` (the logout path) destroys a room the instant
its member count reaches zero, making its id unresolvable afterwards;
`assign_room_for_user` and `on_disconnect` never produce an empty room
(`on_disconnect` does not change any room's member list at all, so a
removal by disconnect never empties a room in the first place). -/
theorem empty_room_destroyed_never_retained
    (st : ServerState) (u sid newId : String) (hne : NoEmptyRoom st) :
    NoEmptyRoom (remove_user_from_room st u) ∧
    NoEmptyRoom ((assign_room_for_user st u newId).1) ∧
    NoEmptyRoom ((on_disconnect st sid).1) ∧
    ((on_disconnect st sid).1.rooms.map (fun r => (r.id, r.users))
       = st.rooms.map (fun r => (r.id, r.users))) ∧
    (∀ room, get_room_for_user st.rooms u = some room → room.users.erase u = [] →
       (st.rooms.map Room.id).Nodup →
       roomById (remove_user_from_room st u).rooms room.id = none) := by
  refine ⟨?_, ?_, ?_, on_disconnect_users st sid, ?_⟩
  · intro r hr
    exact removeRooms_no_empty st.rooms u hne r hr
  · intro r hr
    exact assignRooms_no_empty st.rooms u newId hne r hr
  · intro r hr
    have hmem : (r.id, r.users) ∈ (on_disconnect st sid).1.rooms.map
        (fun r => (r.id, r.users)) := List.mem_map_of_mem _ hr
    rw [on_disconnect_users st sid] at hmem
    obtain ⟨r0, hr0, heq⟩ := List.mem_map.mp hmem
    have husers : r0.users = r.users := congrArg Prod.snd heq
    rw [← husers]
    exact hne r0 hr0
  · intro room hroom hz hn
    exact removeRooms_destroys_id st.rooms u room hn hroom hz

/-- Concrete room for the C7 witness: alice alone in room1. -/
def stC7room : Room := ⟨"room1", ["alice"], [("alice", ⟨some 1, some 2, some false⟩)]⟩

/-- Concrete state for the C7 witness. -/
def stC7 : ServerState :=
  ⟨[("alice", ⟨100, 0, 0, []⟩)], [stC7room], [], [(("room1", "hat"), 3)],
   [("sidA", "alice")]⟩

theorem empty_room_destroyed_never_retained_witness :
    NoEmptyRoom stC7 ∧
    get_room_for_user stC7.rooms "alice" = some stC7room ∧
    stC7room.users.erase "alice" = [] ∧
    (stC7.rooms.map Room.id).Nodup ∧
    NoEmptyRoom (remove_user_from_room stC7 "alice") ∧
    roomById (remove_user_from_room stC7 "alice").rooms stC7room.id = none :=
  ⟨by decide, by decide, by decide, by decide,
   (empty_room_destroyed_never_retained stC7 "alice" "sidA" "fresh" (by decide)).1,
   (empty_room_destroyed_never_retained stC7 "alice" "sidA" "fresh"
      (by decide)).2.2.2.2 stC7room (by decide) (by decide) (by decide)⟩

/-- Concrete state for C8: alice already in room1. -/
def stC8 : ServerState :=
  ⟨[("alice", ⟨100, 0, 0, []⟩)], [⟨"room1", ["alice"], []⟩], [], [], []⟩

/-- C8 counterexample: `assign_room_for_user` itself does not check
existing membership — assigning the already-assigned alice appends a
duplicate to room1 instead of being a no-op. -/
theorem assign_duplicate_membership_counterexample :
    get_room_for_user stC8.rooms "alice" = some ⟨"room1", ["alice"], []⟩ ∧
    (assign_room_for_user stC8 "alice" "fresh").1.rooms
      = [⟨"room1", ["alice", "alice"], []⟩] ∧
    ((assign_room_for_user stC8 "alice" "fresh").1.rooms.map
       (fun r => r.users.count "alice")) = [2] := by decide

/-- C8 amended: the already-assigned no-op lives in `login`, not in
`assign_room_for_user`: when the player already resolves to a room, the
login flow returns that room's id and leaves the state unchanged (no
second membership is added); only for an unassigned player does it call
`assign_room_for_user`. -/
theorem login_existing_player_noop
    (st : ServerState) (username newId : String) (room : Room)
    (h : get_room_for_user st.rooms username = some room) :
    loginAssign st username newId = (st, room.id) ∧ username ∈ room.users := by
  constructor
  · simp [loginAssign, h]
  · exact (get_room_for_user_spec st.rooms username room h).2

theorem login_existing_player_noop_witness :
    get_room_for_user stC8.rooms "alice" = some ⟨"room1", ["alice"], []⟩ ∧
    (loginAssign stC8 "alice" "fresh" = (stC8, (⟨"room1", ["alice"], []⟩ : Room).id) ∧
     "alice" ∈ (⟨"room1", ["alice"], []⟩ : Room).users) :=
  ⟨by decide,
   login_existing_player_noop stC8 "alice" "fresh" ⟨"room1", ["alice"], []⟩ (by decide)⟩

/-- C9: an item whose `limit` is `None` or `0` is never sold out — the
source's `if item["limit"]:` test is falsy so the sold-out check is
skipped — and a purchase by any player with enough coins succeeds
whatever the room counters or `total_sold` hold. -/
theorem zero_or_none_limit_never_sold_out
    (st : ServerState) (username itemId roomId : String) (user : UserRec) (item : Item)
    (hu : alookup st.users username = some user)
    (hi : findItem st.items itemId = some item)
    (hlim : item.limit = none ∨ item.limit = some 0)
    (hc : item.price ≤ user.coins) :
    ∃ st', buy st username itemId roomId
        = some (st', .success (user.coins - item.price)) := by
  have hl : limitHit item.limit (countOf st.roomCounts roomId itemId) = false := by
    rcases hlim with h | h <;> simp [limitHit, h]
  have hnc : ¬ user.coins < item.price := not_lt.mpr hc
  exact ⟨{ st with
           users := aupdate st.users username
             { user with coins := user.coins - item.price,
                         inventory := user.inventory ++ [itemId] },
           items := bumpSold st.items itemId,
           roomCounts := aupdate st.roomCounts (roomId, itemId)
             (countOf st.roomCounts roomId itemId + 1) },
    by simp [buy, hu, hi, hl, hnc]⟩

/-- Concrete state for C9: the item has `limit = 0` and has already
sold 999 units globally and 999 in room1. -/
def stC9 : ServerState :=
  ⟨[("alice", ⟨100, 0, 0, []⟩)], [], [⟨"hat", 10, some 0, 999⟩],
   [(("room1", "hat"), 999)], []⟩

theorem zero_or_none_limit_never_sold_out_witness :
    alookup stC9.users "alice" = some ⟨100, 0, 0, []⟩ ∧
    findItem stC9.items "hat" = some ⟨"hat", 10, some 0, 999⟩ ∧
    ((⟨"hat", 10, some 0, 999⟩ : Item).limit = none ∨
     (⟨"hat", 10, some 0, 999⟩ : Item).limit = some 0) ∧
    (⟨"hat", 10, some 0, 999⟩ : Item).price ≤ (⟨100, 0, 0, []⟩ : UserRec).coins ∧
    (∃ st', buy stC9 "alice" "hat" "room1"
        = some (st', .success ((⟨100, 0, 0, []⟩ : UserRec).coins
            - (⟨"hat", 10, some 0, 999⟩ : Item).price))) :=
  ⟨by decide, by decide, by decide, by decide,
   zero_or_none_limit_never_sold_out stC9 "alice" "hat" "room1"
     ⟨100, 0, 0, []⟩ ⟨"hat", 10, some 0, 999⟩ (by decide) (by decide)
     (by decide) (by decide)⟩

/-- C10: a donate between two distinct players of the same room either
fails with no mutation (amount not strictly positive, or above the
donor's balance) or transfers exactly the amount: the donor loses it,
the recipient gains it, every other account is untouched, the total of
all balances is conserved, and the donor's new balance is
non-negative. -/
theorem donate_transfers_exactly_or_fails
    (st : ServerState) (sid username target : String) (amount : Int)
    (room : Room) (du tu : UserRec)
    (hl : alookup st.loggedIn sid = some username)
    (hr : get_room_for_user st.rooms username = some room)
    (ht : target ∈ room.users)
    (hdu : alookup st.users username = some du)
    (htu : alookup st.users target = some tu)
    (hne : username ≠ target) :
    (amount ≤ 0 ∨ du.coins < amount →
      on_tap_player st sid target "donate" amount
        = some (st, [⟨.donateFailed, none, true⟩])) ∧
    (0 < amount → amount ≤ du.coins →
      ∃ st', on_tap_player st sid target "donate" amount
          = some (st', [⟨.donation username target amount, some room.id, true⟩]) ∧
        alookup st'.users username = some { du with coins := du.coins - amount } ∧
        alookup st'.users target = some { tu with coins := tu.coins + amount } ∧
        (∀ other, other ≠ username → other ≠ target →
           alookup st'.users other = alookup st.users other) ∧
        totalCoins st'.users = totalCoins st.users ∧
        0 ≤ du.coins - amount) := by
  constructor
  · intro hfail
    by_cases ha : amount ≤ 0
    · simp [on_tap_player, hl, hr, ht, ha]
    · have hcc : du.coins < amount := hfail.resolve_left ha
      simp [on_tap_player, hl, hr, ht, ha, hdu, hcc]
  · intro ha0 hale
    have ha : ¬ amount ≤ 0 := not_le.mpr ha0
    have hnc : ¬ du.coins < amount := not_lt.mpr hale
    have halt : alookup (aupdate st.users username
        { du with coins := du.coins - amount }) target = some tu := by
      rw [alookup_aupdate_ne _ _ _ _ (Ne.symm hne)]
      exact htu
    refine ⟨{ st with
              users := aupdate
                (aupdate st.users username { du with coins := du.coins - amount })
                target { tu with coins := tu.coins + amount } },
      ?_, ?_, alookup_aupdate_self .., ?_, ?_, by omega⟩
    · simp [on_tap_player, hl, hr, ht, ha, hdu, hnc, halt]
    · rw [alookup_aupdate_ne _ _ _ _ hne]
      exact alookup_aupdate_self ..
    · intro other ho1 ho2
      rw [alookup_aupdate_ne _ _ _ _ ho2, alookup_aupdate_ne _ _ _ _ ho1]
    · rw [totalCoins_aupdate _ _ tu _ halt, totalCoins_aupdate _ _ du _ hdu]
      simp
      omega

/-- Concrete room for the C10 witness. -/
def stC10room : Room := ⟨"room1", ["alice", "bob"], []⟩

/-- Concrete state for the C10 witness: alice (100 coins) and bob
(5 coins) share room1; alice donates 30 to bob. -/
def stC10 : ServerState :=
  ⟨[("alice", ⟨100, 0, 0, []⟩), ("bob", ⟨5, 0, 0, []⟩)], [stC10room], [], [],
   [("sidA", "alice")]⟩

theorem donate_transfers_exactly_or_fails_witness :
    alookup stC10.loggedIn "sidA" = some "alice" ∧
    get_room_for_user stC10.rooms "alice" = some stC10room ∧
    "bob" ∈ stC10room.users ∧
    alookup stC10.users "alice" = some ⟨100, 0, 0, []⟩ ∧
    alookup stC10.users "bob" = some ⟨5, 0, 0, []⟩ ∧
    "alice" ≠ "bob" ∧
    (0 : Int) < 30 ∧ (30 : Int) ≤ (⟨100, 0, 0, []⟩ : UserRec).coins ∧
    (∃ st', on_tap_player stC10 "sidA" "bob" "donate" 30
        = some (st', [⟨.donation "alice" "bob" 30, some stC10room.id, true⟩]) ∧
      alookup st'.users "alice"
        = some { (⟨100, 0, 0, []⟩ : UserRec) with
                 coins := (⟨100, 0, 0, []⟩ : UserRec).coins - 30 } ∧
      alookup st'.users "bob"
        = some { (⟨5, 0, 0, []⟩ : UserRec) with
                 coins := (⟨5, 0, 0, []⟩ : UserRec).coins + 30 } ∧
      (∀ other, other ≠ "alice" → other ≠ "bob" →
         alookup st'.users other = alookup stC10.users other) ∧
      totalCoins st'.users = totalCoins stC10.users ∧
      0 ≤ (⟨100, 0, 0, []⟩ : UserRec).coins - 30) :=
  ⟨by decide, by decide, by decide, by decide, by decide, by decide,
   by decide, by decide,
   (donate_transfers_exactly_or_fails stC10 "sidA" "alice" "bob" 30 stC10room
      ⟨100, 0, 0, []⟩ ⟨5, 0, 0, []⟩ (by decide) (by decide) (by decide)
      (by decide) (by decide) (by decide)).2 (by decide) (by decide)⟩
